import Mathlib

/-!
Verification of the TileStache vector provider (`TileStache/Vector.py`).

The development shallowly embeds the provider's data model and operations:

* JSON-like response values (`JVal`) with Python-dict style lookup,
  assignment and deletion;
* `VectorResponse.save`'s serialize/encode state machine (`save`,
  `encode`, `geoContent`), including the Python 2 `json` iterencode
  chunking and the `%.6f` float re-rendering loop (`rewriteAtom`);
* the GeoJSON-to-Arc reserialization (`_reserialize_to_arc`);
* the tile perimeter (`_tile_perimeter`, `_tile_perimeter_wkt`);
* OGR property extraction (`_feature_properties`);
* the per-record extraction pipeline (`_get_features`);
* the CRS selection of `Provider.renderTile` (`renderTileCrs`).

External collaborators (OGR geometry operations, spatial references,
projections, the C float formatting of `%` and `repr`, the bson/pyamf
encoders) are modelled as parameters or as exact decimal arithmetic over
`ℚ`, matching the spec's interface-only treatment of them.
-/

/-- One decimal digit character: `chr(48 + d)` for `d < 10`. -/
def digitChar (d : ℕ) : Char := Char.ofNat (48 + d)

/-- Division-by-ten digit recursion with explicit fuel (structural, so
that digit strings compute by definitional reduction). -/
def natDigitsAux : ℕ → ℕ → List Char
  | 0, _ => []
  | fuel + 1, n =>
    if n < 10 then [digitChar n]
    else natDigitsAux fuel (n / 10) ++ [digitChar (n % 10)]

/-- Decimal digits of a natural number, most significant first
(the digits `str(n)` produces in Python).  A number below `10^(n+1)` has
at most `n + 1` digits, so the fuel never runs out. -/
def natDigits (n : ℕ) : List Char := natDigitsAux (n + 1) n

/-- `str(n)` for a natural number. -/
def natStr (n : ℕ) : String := ⟨natDigits n⟩

/-- `str(i)` for an integer. -/
def intStr (i : ℤ) : String :=
  ⟨(if i < 0 then ['-'] else []) ++ natDigits i.natAbs⟩

/-- Exactly `k` decimal digits of `n % 10^k`, most significant first:
the fixed-width fractional part produced by C `%.kf` formatting. -/
def fixedDigits : ℕ → ℕ → List Char
  | 0, _ => []
  | k + 1, n => fixedDigits k (n / 10) ++ [digitChar (n % 10)]

theorem digitChar_isDigit {d : ℕ} (h : d < 10) : (digitChar d).isDigit = true := by
  interval_cases d <;> decide

theorem digitChar_ne_dash {d : ℕ} (h : d < 10) : digitChar d ≠ '-' := by
  interval_cases d <;> decide

theorem natDigits_ne_nil (n : ℕ) : natDigits n ≠ [] := by
  rw [natDigits, natDigitsAux]
  split <;> simp

theorem natDigitsAux_all_digit (fuel : ℕ) :
    ∀ n, ∀ c ∈ natDigitsAux fuel n, c.isDigit = true := by
  induction fuel with
  | zero => simp [natDigitsAux]
  | succ fuel ih =>
    intro n c hc
    rw [natDigitsAux] at hc
    split at hc
    · rename_i h
      simp only [List.mem_singleton] at hc
      exact hc ▸ digitChar_isDigit h
    · rcases List.mem_append.mp hc with h1 | h2
      · exact ih (n / 10) c h1
      · simp only [List.mem_singleton] at h2
        exact h2 ▸ digitChar_isDigit (Nat.mod_lt _ (by omega))

theorem natDigits_all_digit (n : ℕ) : ∀ c ∈ natDigits n, c.isDigit = true :=
  natDigitsAux_all_digit (n + 1) n

theorem fixedDigits_length (k n : ℕ) : (fixedDigits k n).length = k := by
  induction k generalizing n with
  | zero => rfl
  | succ k ih => simp [fixedDigits, ih]

theorem fixedDigits_all_digit (k n : ℕ) : ∀ c ∈ fixedDigits k n, c.isDigit = true := by
  induction k generalizing n with
  | zero => simp [fixedDigits]
  | succ k ih =>
    intro c hc
    rcases List.mem_append.mp hc with h1 | h2
    · exact ih _ c h1
    · simp only [List.mem_singleton] at h2
      exact h2 ▸ digitChar_isDigit (Nat.mod_lt _ (by omega))

/-- `⌊q + 1/2⌋`, computed directly on the numerator and denominator so it
reduces definitionally. -/
def roundHalfUp (q : ℚ) : ℤ := Int.fdiv (2 * q.num + (q.den : ℤ)) (2 * (q.den : ℤ))

/-- The fixed-point rendering `'%.kf' % q` of C's printf family, on exact
rationals: round to `k` fractional digits, then print sign, integer part,
decimal point and exactly `k` fractional digits.  (The source hands `%.6f`
and `%.3f` a machine float; the rounding step here stands for that external
C behaviour on the exactly-representable decimals the claims quantify
over.) -/
def formatFixed (k : ℕ) (q : ℚ) : String :=
  let n : ℤ := roundHalfUp (q * (10 ^ k : ℚ))
  let a : ℕ := n.natAbs
  ⟨(if n < 0 then ['-'] else []) ++ natDigits (a / 10 ^ k) ++ '.' :: fixedDigits k (a % 10 ^ k)⟩

/-- `'%.6f' % q`, the float re-rendering used for text-encoded responses. -/
def format6 (q : ℚ) : String := formatFixed 6 q

/-- `'%.3f' % q`, the coordinate rendering used for the tile boundary WKT. -/
def format3 (q : ℚ) : String := formatFixed 3 q

/-- Strip one leading sign character, as the `-?` prefix of the float
pattern does. -/
def stripSign : List Char → List Char
  | '-' :: r => r
  | r => r

/-- Shape test: optional minus, one or more digits, a decimal point, then
exactly `k` digits.  `decShape 6 s` holds exactly of strings printed with
six digits after the decimal point. -/
def decShape (k : ℕ) (s : String) : Bool :=
  let cs := stripSign s.data
  let ds := cs.takeWhile Char.isDigit
  match cs.dropWhile Char.isDigit with
  | '.' :: fs => !ds.isEmpty && (fs.length == k) && fs.all Char.isDigit
  | _ => false

/-- The anchored regular expression `^-?\d+\.\d+$` compiled by
`VectorResponse.save` (`float_pat`). -/
def floatPat (s : String) : Bool :=
  let cs := stripSign s.data
  let ds := cs.takeWhile Char.isDigit
  match cs.dropWhile Char.isDigit with
  | '.' :: fs => !ds.isEmpty && !fs.isEmpty && fs.all Char.isDigit
  | _ => false

/-- Numeric value of a digit string. -/
def digitsToNat (cs : List Char) : ℕ :=
  cs.foldl (fun acc c => 10 * acc + (c.toNat - 48)) 0

/-- `float(atom)` for an atom matching `floatPat`: exact decimal value of
a `-?digits.digits` token. -/
def parseDec (s : String) : ℚ :=
  match s.data with
  | '-' :: r => -(parseDecCore r)
  | r => parseDecCore r
where
  parseDecCore (cs : List Char) : ℚ :=
    let ds := cs.takeWhile Char.isDigit
    let fs := (cs.dropWhile Char.isDigit).drop 1
    (digitsToNat ds : ℚ) + (digitsToNat fs : ℚ) / (10 ^ fs.length : ℚ)

/-- The body of the encode loop of `VectorResponse.save` for text formats:
an emitted atom matching `float_pat` is written as `'%.6f' % float(atom)`,
any other atom is written unchanged. -/
def rewriteAtom (s : String) : String :=
  if floatPat s then format6 (parseDec s) else s

theorem takeWhile_all_append {p : Char → Bool} {xs : List Char} {y : Char} {ys : List Char}
    (hxs : ∀ x ∈ xs, p x = true) (hy : p y = false) :
    (xs ++ y :: ys).takeWhile p = xs := by
  induction xs with
  | nil => simp [List.takeWhile, hy]
  | cons a as ih =>
    have ha := hxs a (List.mem_cons_self a as)
    simp only [List.cons_append, List.takeWhile_cons, ha, if_true]
    rw [ih (fun x hx => hxs x (List.mem_cons_of_mem a hx))]

theorem dropWhile_all_append {p : Char → Bool} {xs : List Char} {y : Char} {ys : List Char}
    (hxs : ∀ x ∈ xs, p x = true) (hy : p y = false) :
    (xs ++ y :: ys).dropWhile p = y :: ys := by
  induction xs with
  | nil => simp [List.dropWhile, hy]
  | cons a as ih =>
    have ha := hxs a (List.mem_cons_self a as)
    simp only [List.cons_append, List.dropWhile_cons, ha, if_true]
    exact ih (fun x hx => hxs x (List.mem_cons_of_mem a hx))

theorem stripSign_of_digit {c : Char} {r : List Char} (h : c.isDigit = true) :
    stripSign (c :: r) = c :: r := by
  unfold stripSign
  split
  · rename_i heq
    rw [List.cons.injEq] at heq
    exfalso
    rw [heq.1] at h
    exact absurd h (by decide)
  · rfl

/-- Every string produced by `formatFixed k` has the decimal shape with
exactly `k` digits after the point. -/
theorem decShape_formatFixed (k : ℕ) (q : ℚ) : decShape k (formatFixed k q) = true := by
  unfold formatFixed decShape
  set n : ℤ := roundHalfUp (q * (10 ^ k : ℚ)) with hn
  set a : ℕ := n.natAbs with ha
  have hdot : ('.' : Char).isDigit = false := by decide
  have hint := natDigits_all_digit (a / 10 ^ k)
  have hfrac := fixedDigits_all_digit k (a % 10 ^ k)
  have hstrip : stripSign
      ((if n < 0 then ['-'] else []) ++ natDigits (a / 10 ^ k) ++ '.' :: fixedDigits k (a % 10 ^ k))
      = natDigits (a / 10 ^ k) ++ '.' :: fixedDigits k (a % 10 ^ k) := by
    split
    · rfl
    · simp only [List.nil_append]
      obtain ⟨c, cs, hc⟩ := List.exists_cons_of_ne_nil (natDigits_ne_nil (a / 10 ^ k))
      rw [hc, List.cons_append]
      rw [hc] at hint
      exact stripSign_of_digit (hint c (List.mem_cons_self c cs))
  simp only [List.append_assoc] at hstrip ⊢
  rw [hstrip, takeWhile_all_append hint hdot, dropWhile_all_append hint hdot]
  simp only [Bool.and_eq_true, List.all_eq_true]
  refine ⟨⟨?_, ?_⟩, ?_⟩
  · rcases List.exists_cons_of_ne_nil (natDigits_ne_nil (a / 10 ^ k)) with ⟨c, cs, hc⟩
    simp [hc]
  · simp [fixedDigits_length]
  · exact fixedDigits_all_digit k (a % 10 ^ k)

/-- JSON-like values: the Python objects `VectorResponse.save` and
`_reserialize_to_arc` manipulate.  Floats are represented by their decimal
rendering `m / 10^(e+1)` (the subset of machine floats whose `repr` is a
plain `-?digits.digits` decimal, which is what coordinates are); objects
keep Python-dict insertion order as an association list. -/
inductive JVal where
  | jnull
  | jbool (b : Bool)
  | jint (n : ℤ)
  | jfloat (m : ℤ) (e : ℕ)
  | jstr (s : String)
  | jarr (elems : List JVal)
  | jobj (items : List (String × JVal))

/-- First-match association-list lookup: Python `d[k]` / `k in d`. -/
def lookupPairs : List (String × JVal) → String → Option JVal
  | [], _ => none
  | (k, v) :: rest, key => if k = key then some v else lookupPairs rest key

/-- Python `d[k] = v`: replace the first binding of `k`, else append. -/
def setPairs : List (String × JVal) → String → JVal → List (String × JVal)
  | [], key, v => [(key, v)]
  | (k, w) :: rest, key, v =>
    if k = key then (key, v) :: rest else (k, w) :: setPairs rest key v

/-- `d[k]` on an object, `none` otherwise (and for a missing key). -/
def JVal.lookup : JVal → String → Option JVal
  | .jobj kvs, key => lookupPairs kvs key
  | _, _ => none

/-- `d[k] = v` on an object; other values are left unchanged. -/
def JVal.setKey : JVal → String → JVal → JVal
  | .jobj kvs, key, v => .jobj (setPairs kvs key v)
  | j, _, _ => j

/-- `del d[k]` on an object; other values are left unchanged. -/
def JVal.delKey : JVal → String → JVal
  | .jobj kvs, key => .jobj (kvs.filter (fun p => !(p.1 == key)))
  | j, _ => j

theorem lookupPairs_setPairs (kvs : List (String × JVal)) (key : String) (v : JVal) :
    lookupPairs (setPairs kvs key v) key = some v := by
  induction kvs with
  | nil => simp [setPairs, lookupPairs]
  | cons p rest ih =>
    obtain ⟨k, w⟩ := p
    by_cases h : k = key
    · simp [setPairs, lookupPairs, h]
    · simp [setPairs, lookupPairs, h, ih]

theorem lookupPairs_filter_ne (kvs : List (String × JVal)) (key : String) :
    lookupPairs (kvs.filter (fun p => !(p.1 == key))) key = none := by
  induction kvs with
  | nil => simp [lookupPairs]
  | cons p rest ih =>
    obtain ⟨k, w⟩ := p
    rw [List.filter_cons]
    by_cases h : k = key
    · simp [h, ih]
    · simp [h, lookupPairs, ih]

theorem lookup_setKey_self {content : JVal} {key0 : String} {x : JVal}
    (h : content.lookup key0 = some x) (key : String) (v : JVal) :
    (content.setKey key v).lookup key = some v := by
  cases content <;> simp_all [JVal.lookup, JVal.setKey, lookupPairs_setPairs]

theorem lookup_delKey_self (content : JVal) (key : String) :
    (content.delKey key).lookup key = none := by
  cases content <;> simp [JVal.lookup, JVal.delKey, lookupPairs_filter_ne]

/-- Hexadecimal digit character. -/
def hexChar (d : ℕ) : Char :=
  if d < 10 then digitChar d else Char.ofNat (97 + (d - 10))

/-- Exactly four lowercase hex digits, as in a `\uXXXX` escape. -/
def hex4 (n : ℕ) : List Char :=
  [hexChar (n / 4096 % 16), hexChar (n / 256 % 16), hexChar (n / 16 % 16), hexChar (n % 16)]

/-- Escape one character the way `json.encoder.encode_basestring_ascii`
does (the `_encoder` of the stdlib collaborator). -/
def escChar (c : Char) : List Char :=
  if c = '"' then ['\\', '"']
  else if c = '\\' then ['\\', '\\']
  else if c = '\n' then ['\\', 'n']
  else if c = '\t' then ['\\', 't']
  else if c = '\r' then ['\\', 'r']
  else if c.toNat = 8 then ['\\', 'b']
  else if c.toNat = 12 then ['\\', 'f']
  else if c.toNat < 32 then '\\' :: 'u' :: hex4 c.toNat
  else if c.toNat < 127 then [c]
  else if c.toNat < 65536 then '\\' :: 'u' :: hex4 c.toNat
  else
    '\\' :: 'u' :: hex4 (55296 + (c.toNat - 65536) / 1024) ++
      '\\' :: 'u' :: hex4 (56320 + (c.toNat - 65536) % 1024)

/-- The quoted, escaped JSON rendering of a string. -/
def jsonStr (s : String) : String :=
  ⟨'"' :: (s.data.flatMap escChar) ++ ['"']⟩

/-- `repr` of the float `m / 10^(e+1)`: sign, integer digits, point, and
`e + 1` fractional digits (`FLOAT_REPR` in the json collaborator). -/
def floatRepr (m : ℤ) (e : ℕ) : String :=
  ⟨(if m < 0 then ['-'] else []) ++
    natDigits (m.natAbs / 10 ^ (e + 1)) ++ '.' :: fixedDigits (e + 1) (m.natAbs % 10 ^ (e + 1))⟩

/-- The single-chunk rendering of a scalar value inside the iterencode
loops (`null`, booleans, ints, floats and strings); `none` for the
container values that recurse instead. -/
def scalarAtom : JVal → Option String
  | .jnull => some "null"
  | .jbool true => some "true"
  | .jbool false => some "false"
  | .jint n => some (intStr n)
  | .jfloat m e => some (floatRepr m e)
  | .jstr s => some (jsonStr s)
  | _ => none

/-- `'\n'` plus `width * lvl` spaces: the `newline_indent` of
`_make_iterencode` when an indent width is configured. -/
def nlIndent (width lvl : ℕ) : String :=
  ⟨'\n' :: List.replicate (width * lvl) ' '⟩

mutual

/-- The chunk stream `JSONEncoder(indent=ind).iterencode(v)` yields, as
the pure-Python `_make_iterencode` of Python 2 produces it (iterencode
never takes the C accelerator path).  Scalars inside a list are merged
with the pending `[`/separator buffer; dict keys, separators and scalar
dict values are yielded as chunks of their own. -/
def jatoms (ind : Option ℕ) (lvl : ℕ) : JVal → List String
  | .jnull => ["null"]
  | .jbool true => ["true"]
  | .jbool false => ["false"]
  | .jint n => [intStr n]
  | .jfloat m e => [floatRepr m e]
  | .jstr s => [jsonStr s]
  | .jarr xs => jatomsArr ind lvl xs
  | .jobj kvs => jatomsObj ind lvl kvs
termination_by v => (sizeOf v, 0)

/-- `_iterencode_list`. -/
def jatomsArr (ind : Option ℕ) (lvl : ℕ) : List JVal → List String
  | [] => ["[]"]
  | x :: xs =>
    match ind with
    | none => jatomsArrItems none lvl ", " "[" (x :: xs) ++ ["]"]
    | some w =>
      jatomsArrItems (some w) (lvl + 1) (", " ++ nlIndent w (lvl + 1))
          ("[" ++ nlIndent w (lvl + 1)) (x :: xs) ++ [nlIndent w lvl, "]"]
termination_by xs => (sizeOf xs, 1)

/-- The item loop of `_iterencode_list`: `buf` is the pending text
(`[` or the separator) that a scalar chunk absorbs. -/
def jatomsArrItems (ind : Option ℕ) (lvl : ℕ) (sep buf : String) : List JVal → List String
  | [] => []
  | x :: xs =>
    match scalarAtom x with
    | some t => (buf ++ t) :: jatomsArrItems ind lvl sep sep xs
    | none => buf :: (jatoms ind lvl x ++ jatomsArrItems ind lvl sep sep xs)
termination_by xs => (sizeOf xs, 0)

/-- `_iterencode_dict`. -/
def jatomsObj (ind : Option ℕ) (lvl : ℕ) : List (String × JVal) → List String
  | [] => ["\x7b\x7d"]
  | kv :: kvs =>
    match ind with
    | none => "\x7b" :: (jatomsObjItems none lvl ", " true (kv :: kvs) ++ ["\x7d"])
    | some w =>
      "\x7b" :: nlIndent w (lvl + 1) ::
        (jatomsObjItems (some w) (lvl + 1) (", " ++ nlIndent w (lvl + 1)) true (kv :: kvs) ++
          [nlIndent w lvl, "\x7d"])
termination_by kvs => (sizeOf kvs, 1)

/-- The item loop of `_iterencode_dict`: separator, encoded key, key
separator and scalar values are each yielded as their own chunk. -/
def jatomsObjItems (ind : Option ℕ) (lvl : ℕ) (sep : String) (isFirst : Bool) :
    List (String × JVal) → List String
  | [] => []
  | (k, v) :: rest =>
    (if isFirst then [] else [sep]) ++ jsonStr k :: ": " ::
      ((match scalarAtom v with
        | some t => [t]
        | none => jatoms ind lvl v) ++ jatomsObjItems ind lvl sep false rest)
termination_by kvs => (sizeOf kvs, 0)

end

/-- Output of one `save` call: the bytes written for text formats, or the
structured payload handed to the binary encoder (bson/pyamf serialize the
value structurally, so equality of the payload is value-identity of the
decoded structure). -/
inductive Output where
  | text (s : String)
  | bin (v : JVal)

/-- The out-of-band CRS link descriptor
`{'type': 'link', 'properties': {'href': '0.wkt', 'type': 'ogcwkt'}}`. -/
def linkCrs : JVal :=
  .jobj [("type", .jstr "link"),
         ("properties", .jobj [("href", .jstr "0.wkt"), ("type", .jstr "ogcwkt")])]

/-- The Geo* serialization step of `VectorResponse.save`: a `wkt` CRS is
replaced by `linkCrs`, a CRS without `wkt` is deleted.  The assignment and
deletion act on `self.content` itself (the local `content` aliases it). -/
def geoContent (content : JVal) : Except String JVal :=
  match content.lookup "crs" with
  | none => .error "KeyError: crs"
  | some crs =>
    match crs.lookup "wkt" with
    | some _ => .ok (content.setKey "crs" linkCrs)
    | none => .ok (content.delKey "crs")

/-- The table `arc_geometry_types` of `_reserialize_to_arc`. -/
def arc_geometry_types : List (String × String) :=
  [("Point", "esriGeometryPoint"),
   ("LineString", "esriGeometryPolyline"),
   ("Polygon", "esriGeometryPolygon"),
   ("MultiPoint", "esriGeometryMultipoint"),
   ("MultiLineString", "esriGeometryPolyline"),
   ("MultiPolygon", "esriGeometryPolygon")]

/-- `content['features']`, which must be a list. -/
def getFeatList (content : JVal) : Except String (List JVal) :=
  match content.lookup "features" with
  | some (.jarr fs) => .ok fs
  | some _ => .error "TypeError: features is not a list"
  | none => .error "KeyError: features"

/-- `feat['geometry']['type']` for one feature. -/
def featGeomType (f : JVal) : Except String String :=
  match f.lookup "geometry" with
  | some g =>
    match g.lookup "type" with
    | some (.jstr t) => .ok t
    | some _ => .error "TypeError: geometry type is not a string"
    | none => .error "KeyError: type"
  | none => .error "KeyError: geometry"

/-- The geometry types of all features, in order (the list comprehension
feeding the first `set(...)` of `_reserialize_to_arc`). -/
def collectTypes : List JVal → Except String (List String)
  | [] => .ok []
  | f :: fs =>
    match featGeomType f with
    | .error e => .error e
    | .ok t =>
      match collectTypes fs with
      | .error e => .error e
      | .ok ts => .ok (t :: ts)

/-- `set([arc_geometry_types.get(type) for type in set(types)])`, with the
hash-ordered Python sets determinized as order-of-last-occurrence
deduplicated lists (only membership matters to the taxonomy check and its
message). -/
def foundTags (types : List String) : List (Option String) :=
  ((types.dedup).map (fun t => arc_geometry_types.lookup t)).dedup

/-- `', '.join(...)`: fails like Python's `join` when the set contains
`None` (an unknown geometry type). -/
def allSome : List (Option String) → Option (List String)
  | [] => some []
  | some x :: rest => (allSome rest).map (x :: ·)
  | none :: _ => none

/-- `', '.join` of a list of names. -/
def joinComma (l : List String) : String := String.intercalate ", " l

/-- The spatial-reference selection of `_reserialize_to_arc`: `wkid` if
the source CRS has one, else `wkt`, else the `{'wkid': 4326}` default. -/
def arcSpatialReference (crs : JVal) : JVal :=
  match crs.lookup "wkid" with
  | some w => .jobj [("wkid", w)]
  | none =>
    match crs.lookup "wkt" with
    | some t => .jobj [("wkt", t)]
    | none => .jobj [("wkid", .jint 4326)]

/-- `reduce(operator.add, ...)` over a list of (expected) lists: fails on
an empty sequence, passes a singleton through unchanged, and concatenates
otherwise (TypeError unless both operands are lists). -/
def pyReduceAdd : List JVal → Except String JVal
  | [] => .error "TypeError: reduce of empty sequence with no initial value"
  | x :: xs =>
    xs.foldlM
      (fun acc y =>
        match acc, y with
        | .jarr a, .jarr b => .ok (JVal.jarr (a ++ b))
        | _, _ => .error "TypeError: unsupported operand types for +")
      x

/-- The Arc geometry for one feature geometry of type tag `t` (the
variant dispatch inside the `_reserialize_to_arc` loop). -/
def arcGeometry (g : JVal) (t : String) : Except String JVal :=
  let coords := g.lookup "coordinates"
  if t = "Point" then
          match coords with
          | some (.jarr [x, y]) => .ok (.jobj [("x", x), ("y", y)])
          | some _ => .error "ValueError: need more than 0 values to unpack"
          | none => .error "KeyError: coordinates"
        else if t = "LineString" then
          match coords with
          | some c => .ok (.jobj [("paths", .jarr [c])])
          | none => .error "KeyError: coordinates"
        else if t = "Polygon" then
          match coords with
          | some c => .ok (.jobj [("rings", c)])
          | none => .error "KeyError: coordinates"
        else if t = "MultiPoint" then
          match coords with
          | some c => .ok (.jobj [("points", c)])
          | none => .error "KeyError: coordinates"
        else if t = "MultiLineString" then
          match coords with
          | some c => .ok (.jobj [("paths", c)])
          | none => .error "KeyError: coordinates"
        else if t = "MultiPolygon" then
          match coords with
          | some (.jarr ps) =>
            match pyReduceAdd ps with
            | .ok r => .ok (.jobj [("rings", r)])
            | .error e => .error e
          | some _ => .error "TypeError: reduce expects a sequence"
          | none => .error "KeyError: coordinates"
        else .error ("Exception: " ++ t)

/-- The per-feature body of the `_reserialize_to_arc` loop: build the Arc
geometry for the feature's variant, wrap it with the passed-through
`attributes`, and report the Arc geometry-type tag the loop assigns to
`response['geometryType']`. -/
def arcFeature (f : JVal) : Except String (JVal × String) :=
  match f.lookup "geometry" with
  | none => .error "KeyError: geometry"
  | some g =>
    match g.lookup "type" with
    | none => .error "KeyError: type"
    | some tv =>
      match tv with
      | .jstr t =>
        (match arcGeometry g t with
         | .error e => .error e
         | .ok geom =>
           match f.lookup "properties" with
           | none => .error "KeyError: properties"
           | some props =>
             match arc_geometry_types.lookup t with
             | some tag => .ok (.jobj [("attributes", props), ("geometry", geom)], tag)
             | none => .error ("KeyError: " ++ t))
      | _ => .error "TypeError: geometry type is not a string"

/-- The feature loop of `_reserialize_to_arc`, in order. -/
def mapArcFeatures : List JVal → Except String (List (JVal × String))
  | [] => .ok []
  | f :: fs =>
    match arcFeature f with
    | .error e => .error e
    | .ok p =>
      match mapArcFeatures fs with
      | .error e => .error e
      | .ok ps => .ok (p :: ps)

/-- `_reserialize_to_arc(content)`: convert a GeoJSON-style feature
collection to the Arc GeoServices serialization.  The taxonomy check on
the set of Arc geometry-type tags runs before the spatial reference is
read and before any feature is transformed; `response['geometryType']` is
set per appended feature, so it is the last feature's tag and is absent
from an empty collection. -/
def _reserialize_to_arc (content : JVal) : Except String JVal :=
  match getFeatList content with
  | .error e => .error e
  | .ok feats =>
    match collectTypes feats with
    | .error e => .error e
    | .ok types =>
      if 1 < (foundTags types).length then
        match allSome (foundTags types) with
        | some names =>
          .error ("Arc serialization needs a single geometry type, not " ++ joinComma names)
        | none => .error "TypeError: sequence item: expected string, NoneType found"
      else
        match content.lookup "crs" with
        | none => .error "KeyError: crs"
        | some crs =>
          match mapArcFeatures feats with
          | .error e => .error e
          | .ok pairs =>
            match pairs.getLast? with
            | none =>
              .ok (.jobj [("spatialReference", arcSpatialReference crs),
                          ("features", .jarr (pairs.map Prod.fst))])
            | some last =>
              .ok (.jobj [("spatialReference", arcSpatialReference crs),
                          ("features", .jarr (pairs.map Prod.fst)),
                          ("geometryType", .jstr last.2)])

/-- The encode stage of `VectorResponse.save`: text formats run every
iterencode chunk through the `float_pat`/`%.6f` rewriting loop
(`indent = self.verbose and 2 or None`); binary formats hand the payload
to the bson/pyamf collaborator with no numeric post-processing. -/
def encode (verbose : Bool) (format : String) (content : JVal) : Output :=
  if format = "GeoJSON" ∨ format = "ArcJSON" then
    .text (String.join ((jatoms (if verbose then some 2 else none) 0 content).map rewriteAtom))
  else .bin content

/-- `VectorResponse.save(out, format)`.  Returns the bytes/payload written
to `out` together with the value of `self.content` after the call: the
Geo* path mutates `self.content` in place (its local `content` is an
alias), while the WKT and Arc* paths leave it untouched.  `srefWkt` is the
WGS84 WKT exported by the external `_sref_4326()` collaborator. -/
def save (srefWkt : String) (verbose : Bool) (content : JVal) (format : String) :
    Except String (Output × JVal) :=
  if format = "WKT" then
    match content.lookup "crs" with
    | none => .error "KeyError: crs"
    | some crs =>
      match crs.lookup "wkt" with
      | some (.jstr w) => .ok (.text w, content)
      | some _ => .error "TypeError: write expects a string"
      | none => .ok (.text srefWkt, content)
  else if format = "GeoJSON" ∨ format = "GeoBSON" ∨ format = "GeoAMF" then
    match geoContent content with
    | .error e => .error e
    | .ok c2 => .ok (encode verbose format c2, c2)
  else if format = "ArcJSON" ∨ format = "ArcBSON" ∨ format = "ArcAMF" then
    match _reserialize_to_arc content with
    | .error e => .error e
    | .ok arc => .ok (encode verbose format arc, content)
  else
    .error ("Vector response only saves .geojson, .arcjson, .geobson, .arcbson, .geoamf, .arcamf and .wkt tiles, not \"" ++ format ++ "\"")

/-- A tile coordinate (row, column, zoom) as used by the tile-coordinate
collaborator. -/
structure TileCoord where
  row : ℤ
  column : ℤ
  zoom : ℤ

/-- `coord.right()`. -/
def TileCoord.right (c : TileCoord) : TileCoord := ⟨c.row, c.column + 1, c.zoom⟩

/-- `coord.down()`. -/
def TileCoord.down (c : TileCoord) : TileCoord := ⟨c.row + 1, c.column, c.zoom⟩

/-- A projected point, exact coordinates.  `proj` below stands for the
external `projection.coordinateProj`. -/
structure ProjPoint where
  x : ℚ
  y : ℚ

/-- `_tile_perimeter(coord, projection)`: the 17-point closed ring walking
the tile edge from the upper-left corner of `coord` to the upper-left
corner of `coord.right().down()`. -/
def _tile_perimeter (proj : TileCoord → ProjPoint) (coord : TileCoord) : List (ℚ × ℚ) :=
  let ul := proj coord
  let lr := proj (TileCoord.down (TileCoord.right coord))
  let xmin := ul.x
  let ymin := ul.y
  let xmax := lr.x
  let ymax := lr.y
  let xspan := xmax - xmin
  let yspan := ymax - ymin
  [(xmin, ymin),
   (xmin + 1 * xspan / 4, ymin),
   (xmin + 2 * xspan / 4, ymin),
   (xmin + 3 * xspan / 4, ymin),
   (xmax, ymin),
   (xmax, ymin + 1 * yspan / 4),
   (xmax, ymin + 2 * yspan / 4),
   (xmax, ymin + 3 * yspan / 4),
   (xmax, ymax),
   (xmax - 1 * xspan / 4, ymax),
   (xmax - 2 * xspan / 4, ymax),
   (xmax - 3 * xspan / 4, ymax),
   (xmin, ymax),
   (xmin, ymax - 1 * yspan / 4),
   (xmin, ymax - 2 * yspan / 4),
   (xmin, ymax - 3 * yspan / 4),
   (xmin, ymin)]

/-- The WKT text `_tile_perimeter_geom` builds and hands to the external
`ogr.CreateGeometryFromWkt`:
`'POLYGON((%s))' % ', '.join(['%.3f %.3f' % xy for xy in perimeter])`. -/
def _tile_perimeter_wkt (proj : TileCoord → ProjPoint) (coord : TileCoord) : String :=
  "POLYGON((" ++
    joinComma ((_tile_perimeter proj coord).map (fun p => format3 p.1 ++ " " ++ format3 p.2)) ++
    "))"

/-- One field of the layer schema: `GetFieldDefn(i)` yields a name
(`GetNameRef`) and an OGR field type code (`GetType`). -/
structure FieldDef where
  name : String
  ftype : ℕ

/-- `okay_types = ogr.OFTInteger, ogr.OFTReal, ogr.OFTString,
ogr.OFTWideString` (codes 0, 2, 4, 6). -/
def okay_types : List ℕ := [0, 2, 4, 6]

/-- The `OFT*` constants of the `ogr` module, as `dir(ogr)` reflection
sees them (type code to name). -/
def ogrTypeNames : List (ℕ × String) :=
  [(0, "OFTInteger"), (1, "OFTIntegerList"), (2, "OFTReal"), (3, "OFTRealList"),
   (4, "OFTString"), (5, "OFTStringList"), (6, "OFTWideString"), (7, "OFTWideStringList"),
   (8, "OFTBinary"), (9, "OFTDate"), (10, "OFTTime"), (11, "OFTDateTime")]

/-- The error `_feature_properties` raises for a field whose type is not
in `okay_types`: the `dir(ogr)` reflection names the type if it is a known
`OFT*` constant, and an unknown code gets the `never even seen` form. -/
def fieldTypeError (t : ℕ) : String :=
  match ogrTypeNames.lookup t with
  | some n => "Found an OGR field type I don't know what to do with: ogr." ++ n
  | none => "Found an OGR field type I've never even seen: " ++ natStr t

/-- The property whitelist parameter: Python `None`, a list, or a dict. -/
inductive PropSpec where
  | pnone
  | plist (names : List String)
  | pdict (mapping : List (String × String))

/-- Whether (and under which output key) a schema field is kept:
`None` keeps every field under its own name; a list keeps listed names; a
dict keeps its keys, renaming to the mapped value — except that Python's
`whitelist[name] or name` falls back to the original name when the mapped
value is falsy (the empty string). -/
def selectedKey (wl : PropSpec) (fd : FieldDef) : Option String :=
  match wl with
  | .pnone => some fd.name
  | .plist names => if fd.name ∈ names then some fd.name else none
  | .pdict m =>
    match m.lookup fd.name with
    | some v => some (if v = "" then fd.name else v)
    | none => none

/-- `feature.GetField(name)` over the record's field values. -/
def getField (record : List (String × JVal)) (name : String) : JVal :=
  (lookupPairs record name).getD JVal.jnull

/-- The field loop of `_feature_properties`, accumulating the `properties`
dict: the type check runs for every schema field, before the whitelist
test can skip the field. -/
def featurePropsGo (record : List (String × JVal)) (wl : PropSpec) :
    List FieldDef → List (String × JVal) → Except String (List (String × JVal))
  | [], props => .ok props
  | fd :: rest, props =>
    if fd.ftype ∈ okay_types then
      match selectedKey wl fd with
      | none => featurePropsGo record wl rest props
      | some key => featurePropsGo record wl rest (setPairs props key (getField record fd.name))
    else .error (fieldTypeError fd.ftype)

/-- `_feature_properties(feature, layer_definition, whitelist)`. -/
def _feature_properties (record : List (String × JVal)) (layerDef : List FieldDef)
    (wl : PropSpec) : Except String (List (String × JVal)) :=
  featurePropsGo record wl layerDef []

/-- One raw OGR feature as the layer iteration yields it: its (cloned)
geometry and its field values. -/
structure OgrFeature (G : Type) where
  geom : G
  fields : List (String × JVal)

/-- The per-record loop of `_get_features`: `bboxIntersect` is the exact
`geometry.Intersect(bbox)` test, `bboxIntersection` the
`geometry.Intersection(bbox)` clip (`none` models the `None` result of a
topology anomaly), and `exportGeom` the reproject-and-export composition
`TransformTo(output_sref)`/`ExportToJson`/`json.loads` — all external OGR
collaborators. -/
def _get_features {G : Type} (clipped : Bool) (bboxIntersect : G → Bool)
    (bboxIntersection : G → Option G) (exportGeom : G → JVal)
    (layerDef : List FieldDef) (wl : PropSpec) :
    List (OgrFeature G) → Except String (List JVal)
  | [] => .ok []
  | f :: rest =>
    if bboxIntersect f.geom then
      match (if clipped then bboxIntersection f.geom else some f.geom) with
      | none =>
        _get_features clipped bboxIntersect bboxIntersection exportGeom layerDef wl rest
      | some g2 =>
        match _feature_properties f.fields layerDef wl with
        | .error e => .error e
        | .ok prop =>
          match _get_features clipped bboxIntersect bboxIntersection exportGeom layerDef wl rest with
          | .error e => .error e
          | .ok out =>
            .ok (JVal.jobj [("type", .jstr "Feature"), ("properties", .jobj prop),
                            ("geometry", exportGeom g2)] :: out)
    else _get_features clipped bboxIntersect bboxIntersection exportGeom layerDef wl rest

/-- The CRS descriptor `Provider.renderTile` stores in the response:
`{'srid': 4326, 'wkid': 4326}` when unprojected; when projected, the layer
projection's WKT — plus `'wkid': 102113` if the requested `srs` equals the
spherical-mercator proj4 string (`sphmercSrs`, the external
`getProjectionByName('spherical mercator').srs`).  `layerWkt` stands for
`sref.ExportToWkt()` of the layer projection. -/
def renderTileCrs (projected : Bool) (srs sphmercSrs layerWkt : String) : JVal :=
  if projected then
    let crs := JVal.jobj [("wkt", .jstr layerWkt)]
    if srs = sphmercSrs then crs.setKey "wkid" (.jint 102113) else crs
  else .jobj [("srid", .jint 4326), ("wkid", .jint 4326)]

/-- The full response content `renderTile` wraps into a `VectorResponse`,
with the extracted features passed through. -/
def renderTileContent (features : List JVal) (projected : Bool)
    (srs sphmercSrs layerWkt : String) : JVal :=
  .jobj [("type", .jstr "FeatureCollection"), ("features", .jarr features),
         ("crs", renderTileCrs projected srs sphmercSrs layerWkt)]

/-- The response content `renderTile` builds for an unprojected layer with
no features: `{'type': 'FeatureCollection', 'features': [],
'crs': {'srid': 4326, 'wkid': 4326}}`. -/
def c1content : JVal :=
  .jobj [("type", .jstr "FeatureCollection"), ("features", .jarr []),
         ("crs", .jobj [("srid", .jint 4326), ("wkid", .jint 4326)])]

/-- `c1content` after one GeoJSON save: the save deleted the `crs` key
from `self.content` in place. -/
def c1mutated : JVal := c1content.delKey "crs"

/-- Claim C1 (code bug): saving the same response twice with the same
format is *not* idempotent for the Geo* formats, because the first save
mutates `self.content` through the aliasing local `content`.  At the
concrete unprojected response `c1content`, the first GeoJSON save
succeeds (deleting `crs` from the response), and the second save of the
same object raises `KeyError: 'crs'` instead of reproducing the first
output. -/
theorem c1_save_not_idempotent :
    save "" false c1content "GeoJSON"
        = .ok (.text "\x7b\"type\": \"FeatureCollection\", \"features\": []\x7d", c1mutated)
      ∧ save "" false c1mutated "GeoJSON" = .error "KeyError: crs" := by
  have h1 : save "" false c1content "GeoJSON"
      = .ok (.text (String.join ((jatoms none 0 c1mutated).map rewriteAtom)), c1mutated) := rfl
  have h2 : jatoms none 0 c1mutated
      = ["\x7b", jsonStr "type", ": ", jsonStr "FeatureCollection", ", ",
         jsonStr "features", ": ", "[]", "\x7d"] := by
    show jatoms none 0 (JVal.jobj [("type", .jstr "FeatureCollection"), ("features", .jarr [])]) = _
    simp [jatoms, jatomsObj, jatomsObjItems, jatomsArr, scalarAtom]
  refine ⟨?_, rfl⟩
  rw [h1, h2]
  rfl

/-- Claim C2 counterexample: with `projected = true` and the requested
`srs` equal to the spherical-mercator proj4 string, the CRS descriptor
carries *both* a `wkt` entry and a `wkid` entry (102113): the two
CrsDescriptor forms are mixed in a single response. -/
theorem c2_crs_mixed_counterexample :
    ((renderTileCrs true "sm" "sm" "WKT0").lookup "wkt").isSome = true
  ∧ (renderTileCrs true "sm" "sm" "WKT0").lookup "wkid" = some (.jint 102113) :=
  ⟨rfl, rfl⟩

/-- Claim C2 (amended): the response CRS is `{srid: 4326, wkid: 4326}`
when output is unprojected and `{wkt: ...}` when it stays in the source
projection — except that a projected render whose requested `srs` equals
the spherical-mercator string additionally receives `wkid: 102113`
alongside the `wkt` entry, mixing the two forms in exactly that case. -/
theorem c2_crs_forms (projected : Bool) (srs sphmercSrs layerWkt : String)
    (features : List JVal) :
    (renderTileContent features projected srs sphmercSrs layerWkt).lookup "crs"
        = some (renderTileCrs projected srs sphmercSrs layerWkt)
  ∧ (projected = false →
      (renderTileCrs projected srs sphmercSrs layerWkt).lookup "srid" = some (.jint 4326)
      ∧ (renderTileCrs projected srs sphmercSrs layerWkt).lookup "wkid" = some (.jint 4326)
      ∧ (renderTileCrs projected srs sphmercSrs layerWkt).lookup "wkt" = none)
  ∧ (projected = true → srs ≠ sphmercSrs →
      (renderTileCrs projected srs sphmercSrs layerWkt).lookup "wkt" = some (.jstr layerWkt)
      ∧ (renderTileCrs projected srs sphmercSrs layerWkt).lookup "wkid" = none
      ∧ (renderTileCrs projected srs sphmercSrs layerWkt).lookup "srid" = none)
  ∧ (projected = true → srs = sphmercSrs →
      (renderTileCrs projected srs sphmercSrs layerWkt).lookup "wkt" = some (.jstr layerWkt)
      ∧ (renderTileCrs projected srs sphmercSrs layerWkt).lookup "wkid" = some (.jint 102113)
      ∧ (renderTileCrs projected srs sphmercSrs layerWkt).lookup "srid" = none) := by
  refine ⟨?_, ?_, ?_, ?_⟩
  · simp [renderTileContent, JVal.lookup, lookupPairs]
  · intro hp
    subst hp
    refine ⟨rfl, rfl, rfl⟩
  · intro hp hsrs
    subst hp
    simp [renderTileCrs, if_neg hsrs, JVal.lookup, lookupPairs]
  · intro hp hsrs
    subst hp
    simp [renderTileCrs, if_pos hsrs, JVal.setKey, setPairs, JVal.lookup, lookupPairs]

/-- Witness for `c2_crs_forms` at concrete inputs, one for each branch. -/
theorem c2_crs_forms_witness :
    (renderTileCrs false "a" "b" "w").lookup "srid" = some (.jint 4326)
  ∧ (renderTileCrs true "a" "b" "w").lookup "wkid" = none
  ∧ (renderTileCrs true "b" "b" "w").lookup "wkid" = some (.jint 102113) :=
  ⟨((c2_crs_forms false "a" "b" "w" []).2.1 rfl).1,
   ((c2_crs_forms true "a" "b" "w" []).2.2.1 rfl (by decide)).2.1,
   ((c2_crs_forms true "b" "b" "w" []).2.2.2 rfl rfl).2.1⟩

/-- Claim C8: in the `_get_features` loop, a record whose geometry fails
the exact `Intersect` test is dropped (the output is exactly that of the
remaining records), and with clipping enabled a record whose
`Intersection` yields no geometry is likewise silently dropped,
processing continuing with the rest rather than raising. -/
theorem c8_pipeline_drops {G : Type} (clipped : Bool) (bboxIntersect : G → Bool)
    (bboxIntersection : G → Option G) (exportGeom : G → JVal)
    (layerDef : List FieldDef) (wl : PropSpec) (f : OgrFeature G)
    (rest : List (OgrFeature G)) :
    (bboxIntersect f.geom = false →
      _get_features clipped bboxIntersect bboxIntersection exportGeom layerDef wl (f :: rest)
        = _get_features clipped bboxIntersect bboxIntersection exportGeom layerDef wl rest)
  ∧ (bboxIntersect f.geom = true → bboxIntersection f.geom = none →
      _get_features true bboxIntersect bboxIntersection exportGeom layerDef wl (f :: rest)
        = _get_features true bboxIntersect bboxIntersection exportGeom layerDef wl rest) := by
  constructor
  · intro h
    simp [_get_features, h]
  · intro h1 h2
    simp [_get_features, h1, h2]

/-- Witness for `c8_pipeline_drops`: a concrete record over `G = ℕ` that
fails the intersect test, and one whose clip yields no geometry. -/
theorem c8_pipeline_drops_witness :
    _get_features (G := ℕ) true (fun _ => false) (fun g => some g) (fun _ => .jnull) [] .pnone
        [⟨0, []⟩] = .ok []
  ∧ _get_features (G := ℕ) true (fun _ => true) (fun _ => none) (fun _ => .jnull) [] .pnone
        [⟨0, []⟩] = .ok [] :=
  ⟨(c8_pipeline_drops true (fun _ => false) (fun g => some g) (fun _ => .jnull) [] .pnone
      ⟨0, []⟩ []).1 rfl,
   (c8_pipeline_drops true (fun _ => true) (fun _ => none) (fun _ => .jnull) [] .pnone
      ⟨0, []⟩ []).2 rfl rfl⟩

/-- A concrete projection for counterexamples: column to x, row to y. -/
def proj0 : TileCoord → ProjPoint := fun c => ⟨(c.column : ℚ), (c.row : ℚ)⟩

/-- Claim C7 counterexample: at tile (0, 0, 0) under `proj0` the ring has
exactly *three* points strictly interior to the top edge (the quarter
points 1/4, 1/2, 3/4), not the four interior samples per edge the claim
asserts. -/
theorem c7_perimeter_counterexample :
    ((_tile_perimeter proj0 ⟨0, 0, 0⟩).countP
        (fun p => decide (p.2 = 0 ∧ 0 < p.1 ∧ p.1 < 1))) = 3
  ∧ ((_tile_perimeter proj0 ⟨0, 0, 0⟩).countP
        (fun p => decide (p.2 = 0 ∧ 0 < p.1 ∧ p.1 < 1))) ≠ 4 := by
  have h : ((_tile_perimeter proj0 ⟨0, 0, 0⟩).countP
      (fun p => decide (p.2 = 0 ∧ 0 < p.1 ∧ p.1 < 1))) = 3 := by
    norm_num [_tile_perimeter, proj0, TileCoord.right, TileCoord.down,
      List.countP, List.countP.go]
  exact ⟨h, by omega⟩

/-- Claim C7 (amended): for every projection and tile coordinate,
`_tile_perimeter` returns a closed ring of exactly 17 points that walks
the four tile edges clockwise with *three* interior samples per edge at
quarter-span intervals; and the WKT text used to build the boundary
polygon renders every coordinate with exactly 3 digits after the decimal
point. -/
theorem c7_perimeter_ring (proj : TileCoord → ProjPoint) (coord : TileCoord) :
    (_tile_perimeter proj coord).length = 17
  ∧ (_tile_perimeter proj coord).head? = (_tile_perimeter proj coord).getLast?
  ∧ _tile_perimeter proj coord =
      (let ul := proj coord
       let lr := proj (TileCoord.down (TileCoord.right coord))
       let xspan := lr.x - ul.x
       let yspan := lr.y - ul.y
       [(ul.x, ul.y),
        (ul.x + xspan * (1 / 4), ul.y), (ul.x + xspan * (2 / 4), ul.y),
        (ul.x + xspan * (3 / 4), ul.y),
        (lr.x, ul.y),
        (lr.x, ul.y + yspan * (1 / 4)), (lr.x, ul.y + yspan * (2 / 4)),
        (lr.x, ul.y + yspan * (3 / 4)),
        (lr.x, lr.y),
        (lr.x - xspan * (1 / 4), lr.y), (lr.x - xspan * (2 / 4), lr.y),
        (lr.x - xspan * (3 / 4), lr.y),
        (ul.x, lr.y),
        (ul.x, lr.y - yspan * (1 / 4)), (ul.x, lr.y - yspan * (2 / 4)),
        (ul.x, lr.y - yspan * (3 / 4)),
        (ul.x, ul.y)])
  ∧ _tile_perimeter_wkt proj coord = "POLYGON((" ++
      joinComma ((_tile_perimeter proj coord).map
        (fun p => format3 p.1 ++ " " ++ format3 p.2)) ++ "))"
  ∧ (∀ q : ℚ, decShape 3 (format3 q) = true) := by
  refine ⟨rfl, rfl, ?_, rfl, fun q => decShape_formatFixed 3 q⟩
  simp only [_tile_perimeter, List.cons.injEq, Prod.mk.injEq, and_true, true_and]
  norm_num
  ring_nf
  norm_num

/-- Claim C4: in text encodings every emitted token matching
`-?digits.digits` is re-rendered with exactly six digits after the
decimal point (`-122.419` becomes the literal `-122.419000`), tokens not
matching the pattern (such as the bare integer `1`) pass through
unchanged, and the binary encodings hand the payload over with no numeric
post-processing. -/
theorem c4_text_float_precision :
    (∀ s : String, floatPat s = true →
        rewriteAtom s = format6 (parseDec s) ∧ decShape 6 (rewriteAtom s) = true)
  ∧ (∀ s : String, floatPat s = false → rewriteAtom s = s)
  ∧ rewriteAtom "-122.419" = "-122.419000"
  ∧ rewriteAtom "1" = "1"
  ∧ (∀ (verbose : Bool) (content : JVal) (format : String),
      format = "GeoJSON" ∨ format = "ArcJSON" →
      encode verbose format content
        = .text (String.join
            ((jatoms (if verbose then some 2 else none) 0 content).map rewriteAtom)))
  ∧ (∀ (verbose : Bool) (content : JVal) (format : String),
      format = "GeoBSON" ∨ format = "ArcBSON" ∨ format = "GeoAMF" ∨ format = "ArcAMF" →
      encode verbose format content = .bin content) := by
  refine ⟨?_, ?_, ?_, by decide, ?_, ?_⟩
  · intro s h
    rw [rewriteAtom, if_pos h]
    exact ⟨rfl, decShape_formatFixed 6 (parseDec s)⟩
  · intro s h
    rw [rewriteAtom, if_neg (by simp [h])]
  · have hpat : floatPat "-122.419" = true := by decide
    have hq : parseDec "-122.419"
        = -(((122 : ℕ) : ℚ) + ((419 : ℕ) : ℚ) / ((10 : ℚ) ^ (3 : ℕ))) := rfl
    have h2 : parseDec "-122.419" * (10 : ℚ) ^ (6 : ℕ) = ((-122419000 : ℤ) : ℚ) := by
      rw [hq]; norm_num
    have hr : roundHalfUp (parseDec "-122.419" * (10 : ℚ) ^ (6 : ℕ)) = -122419000 := by
      rw [roundHalfUp, h2, Rat.num_intCast, Rat.den_intCast]
      decide
    rw [rewriteAtom, if_pos hpat]
    simp only [format6, formatFixed]
    rw [hr]
    decide
  · intro verbose content format hf
    rcases hf with rfl | rfl <;> rfl
  · intro verbose content format hf
    rcases hf with rfl | rfl | rfl | rfl <;> rfl

/-- Witness for `c4_text_float_precision` at concrete atoms and payloads
(the chunk `"[1.5"`, a float merged with its list bracket, does not match
the anchored pattern and passes through unchanged). -/
theorem c4_text_float_precision_witness :
    (rewriteAtom "-122.419" = format6 (parseDec "-122.419")
      ∧ decShape 6 (rewriteAtom "-122.419") = true)
  ∧ rewriteAtom "[1.5" = "[1.5"
  ∧ encode false "ArcJSON" (.jint 1)
      = .text (String.join ((jatoms none 0 (.jint 1)).map rewriteAtom))
  ∧ encode true "GeoBSON" (.jint 1) = .bin (.jint 1) :=
  ⟨c4_text_float_precision.1 "-122.419" (by decide),
   c4_text_float_precision.2.1 "[1.5" (by decide),
   c4_text_float_precision.2.2.2.2.1 false (.jint 1) "ArcJSON" (Or.inr rfl),
   c4_text_float_precision.2.2.2.2.2 true (.jint 1) "GeoBSON" (Or.inl rfl)⟩

/-- Claim C6: saving in a Geo* format replaces a CRS that carries a `wkt`
entry by the out-of-band link descriptor
`{'type': 'link', 'properties': {'href': '0.wkt', 'type': 'ogcwkt'}}`,
and deletes the `crs` key entirely when the CRS has no `wkt` entry; the
encoded payload is exactly the so-transformed content. -/
theorem c6_geo_crs_link (srefWkt : String) (verbose : Bool) (content crs : JVal)
    (format : String)
    (hf : format = "GeoJSON" ∨ format = "GeoBSON" ∨ format = "GeoAMF")
    (hc : content.lookup "crs" = some crs) :
    ((crs.lookup "wkt").isSome = true →
        save srefWkt verbose content format
          = .ok (encode verbose format (content.setKey "crs" linkCrs),
                 content.setKey "crs" linkCrs)
        ∧ (content.setKey "crs" linkCrs).lookup "crs" = some linkCrs)
  ∧ (crs.lookup "wkt" = none →
        save srefWkt verbose content format
          = .ok (encode verbose format (content.delKey "crs"), content.delKey "crs")
        ∧ (content.delKey "crs").lookup "crs" = none) := by
  have hwkt : (crs.lookup "wkt").isSome = true →
      geoContent content = .ok (content.setKey "crs" linkCrs) := by
    intro h
    obtain ⟨w, hw⟩ := Option.isSome_iff_exists.mp h
    simp only [geoContent, hc, hw]
  have hnone : crs.lookup "wkt" = none →
      geoContent content = .ok (content.delKey "crs") := by
    intro h
    simp only [geoContent, hc, h]
  have hsave : ∀ c2, geoContent content = .ok c2 →
      save srefWkt verbose content format = .ok (encode verbose format c2, c2) := by
    intro c2 hg
    rcases hf with rfl | rfl | rfl <;>
      · show (match geoContent content with
            | .error e => Except.error e
            | .ok c2 => Except.ok (encode verbose _ c2, c2)) = _
        rw [hg]
  exact ⟨fun h => ⟨hsave _ (hwkt h), lookup_setKey_self hc "crs" linkCrs⟩,
         fun h => ⟨hsave _ (hnone h), lookup_delKey_self content "crs"⟩⟩

/-- A projected response content with a `wkt` CRS. -/
def c6content : JVal := .jobj [("features", .jarr []), ("crs", .jobj [("wkt", .jstr "W6")])]

/-- Witness for `c6_geo_crs_link` at a concrete projected response. -/
theorem c6_geo_crs_link_witness :
    save "" false c6content "GeoJSON"
      = .ok (encode false "GeoJSON" (c6content.setKey "crs" linkCrs),
             c6content.setKey "crs" linkCrs)
  ∧ (c6content.setKey "crs" linkCrs).lookup "crs" = some linkCrs :=
  (c6_geo_crs_link "" false c6content (.jobj [("wkt", .jstr "W6")]) "GeoJSON"
    (Or.inl rfl) rfl).1 rfl

/-- Claim C9: the Arc serialization's `spatialReference` is `{wkid: w}`
when the source CRS carries a `wkid` entry, otherwise `{wkt: t}` when it
carries a `wkt` entry, and defaults to `{wkid: 4326}` when the CRS has
neither. -/
theorem c9_arc_spatial_reference (content crs res : JVal)
    (hc : content.lookup "crs" = some crs)
    (hres : _reserialize_to_arc content = .ok res) :
    res.lookup "spatialReference" = some
      (match crs.lookup "wkid" with
       | some w => JVal.jobj [("wkid", w)]
       | none =>
         match crs.lookup "wkt" with
         | some t => JVal.jobj [("wkt", t)]
         | none => JVal.jobj [("wkid", .jint 4326)]) := by
  show res.lookup "spatialReference" = some (arcSpatialReference crs)
  unfold _reserialize_to_arc at hres
  rw [hc] at hres
  repeat' split at hres
  all_goals first
    | (cases hres; simp_all [JVal.lookup, lookupPairs])
    | exact absurd hres (by simp)

/-- Witness for `c9_arc_spatial_reference`: an empty collection whose CRS
has only a `wkt` entry is reserialized with `spatialReference`
`{wkt: "W9"}`. -/
theorem c9_arc_spatial_reference_witness :
    (JVal.jobj [("spatialReference", .jobj [("wkt", .jstr "W9")]),
                ("features", .jarr [])]).lookup "spatialReference"
      = some (.jobj [("wkt", .jstr "W9")]) :=
  c9_arc_spatial_reference
    (.jobj [("features", .jarr []), ("crs", .jobj [("wkt", .jstr "W9")])])
    (.jobj [("wkt", .jstr "W9")])
    (.jobj [("spatialReference", .jobj [("wkt", .jstr "W9")]), ("features", .jarr [])])
    rfl rfl

/-- Claim C10: the unsupported-field-type check runs for every schema
field before the whitelist filter is consulted: if any declared field has
a type outside `okay_types`, property extraction fails with the error
naming that type, for *every* whitelist — even one that excludes the
offending field. -/
theorem c10_field_type_check (record : List (String × JVal)) (pre : List FieldDef)
    (bad : FieldDef) (rest : List FieldDef) (wl : PropSpec)
    (hpre : ∀ fd ∈ pre, fd.ftype ∈ okay_types) (hbad : bad.ftype ∉ okay_types) :
    _feature_properties record (pre ++ bad :: rest) wl = .error (fieldTypeError bad.ftype)
  ∧ (∀ n, ogrTypeNames.lookup bad.ftype = some n →
      fieldTypeError bad.ftype
        = "Found an OGR field type I don't know what to do with: ogr." ++ n) := by
  constructor
  · have key : ∀ (l : List FieldDef), (∀ fd ∈ l, fd.ftype ∈ okay_types) →
        ∀ props, featurePropsGo record wl (l ++ bad :: rest) props
          = .error (fieldTypeError bad.ftype) := by
      intro l
      induction l with
      | nil =>
        intro _ props
        simp [featurePropsGo, hbad]
      | cons fd l ih =>
        intro hl props
        have hfd := hl fd (List.mem_cons_self _ _)
        simp only [List.cons_append, featurePropsGo, if_pos hfd]
        cases hsel : selectedKey wl fd with
        | none => exact ih (fun x hx => hl x (List.mem_cons_of_mem _ hx)) props
        | some key => exact ih (fun x hx => hl x (List.mem_cons_of_mem _ hx)) _
    exact key pre hpre []
  · intro n hn
    simp [fieldTypeError, hn]

/-- Witness for `c10_field_type_check`: a schema declaring an `OFTDate`
field fails even under an empty whitelist that excludes every field. -/
theorem c10_field_type_check_witness :
    _feature_properties [] [⟨"WHEN", 9⟩] (.plist [])
      = .error "Found an OGR field type I don't know what to do with: ogr.OFTDate" :=
  (c10_field_type_check [] [] ⟨"WHEN", 9⟩ [] (.plist []) (by simp) (by decide)).1

/-- The properties `_feature_properties` is expected to build: schema
fields in schema order, kept and renamed per `selectedKey`. -/
def expectedProps (record : List (String × JVal)) (wl : PropSpec) (schema : List FieldDef) :
    List (String × JVal) :=
  schema.filterMap (fun fd => (selectedKey wl fd).map (fun k => (k, getField record fd.name)))

/-- The output key of a dict-whitelisted field: the mapped name, or the
original name when the mapped name is the (falsy) empty string. -/
def mappedName (m : List (String × String)) (fd : FieldDef) : String :=
  match m.lookup fd.name with
  | some v => if v = "" then fd.name else v
  | none => fd.name

theorem setPairs_fresh {props : List (String × JVal)} {key : String}
    (h : key ∉ props.map Prod.fst) (v : JVal) :
    setPairs props key v = props ++ [(key, v)] := by
  induction props with
  | nil => rfl
  | cons p rest ih =>
    obtain ⟨k, w⟩ := p
    simp only [List.map_cons, List.mem_cons, not_or] at h
    simp only [setPairs, if_neg (fun hh : k = key => h.1 hh.symm), List.cons_append,
      List.cons.injEq, true_and]
    exact ih h.2

theorem expectedProps_cons (record : List (String × JVal)) (wl : PropSpec)
    (fd : FieldDef) (rest : List FieldDef) :
    expectedProps record wl (fd :: rest)
      = (match selectedKey wl fd with
         | none => expectedProps record wl rest
         | some k => (k, getField record fd.name) :: expectedProps record wl rest) := by
  cases hsel : selectedKey wl fd <;> simp [expectedProps, List.filterMap_cons, hsel]

theorem featurePropsGo_ok (record : List (String × JVal)) (wl : PropSpec)
    (schema : List FieldDef) :
    ∀ (props : List (String × JVal)),
      (∀ fd ∈ schema, fd.ftype ∈ okay_types) →
      ((expectedProps record wl schema).map Prod.fst).Nodup →
      (∀ k ∈ (expectedProps record wl schema).map Prod.fst, k ∉ props.map Prod.fst) →
      featurePropsGo record wl schema props = .ok (props ++ expectedProps record wl schema) := by
  induction schema with
  | nil =>
    intro props _ _ _
    simp [featurePropsGo, expectedProps]
  | cons fd rest ih =>
    intro props hok hnd hdisj
    have hfd := hok fd (List.mem_cons_self _ _)
    have hok2 : ∀ x ∈ rest, x.ftype ∈ okay_types :=
      fun x hx => hok x (List.mem_cons_of_mem _ hx)
    simp only [featurePropsGo, if_pos hfd]
    rw [expectedProps_cons] at hnd hdisj ⊢
    cases hsel : selectedKey wl fd with
    | none =>
      rw [hsel] at hnd hdisj
      exact ih props hok2 hnd hdisj
    | some key =>
      rw [hsel] at hnd hdisj
      replace hdisj : ∀ k ∈ List.map Prod.fst
          ((key, getField record fd.name) :: expectedProps record wl rest),
          k ∉ List.map Prod.fst props := hdisj
      simp only [List.map_cons, List.nodup_cons] at hnd
      have hkey : key ∉ props.map Prod.fst := hdisj key (by simp)
      show featurePropsGo record wl rest (setPairs props key (getField record fd.name))
        = Except.ok (props ++ (key, getField record fd.name) :: expectedProps record wl rest)
      rw [setPairs_fresh hkey]
      have hdisj2 : ∀ k ∈ (expectedProps record wl rest).map Prod.fst,
          k ∉ (props ++ [(key, getField record fd.name)]).map Prod.fst := by
        intro k hk
        simp only [List.map_append, List.mem_append, List.map_cons, List.map_nil,
          List.mem_singleton, not_or]
        exact ⟨hdisj k (by simp [hk]), fun hkk => hnd.1 (hkk ▸ hk)⟩
      rw [ih _ hok2 hnd.2 hdisj2]
      simp

theorem expectedProps_pnone (record : List (String × JVal)) (schema : List FieldDef) :
    expectedProps record .pnone schema
      = schema.map (fun fd => (fd.name, getField record fd.name)) := by
  induction schema with
  | nil => rfl
  | cons fd rest ih => rw [expectedProps_cons, List.map_cons]; simp [selectedKey, ih]

theorem expectedProps_plist (record : List (String × JVal)) (ns : List String)
    (schema : List FieldDef) :
    expectedProps record (.plist ns) schema
      = (schema.filter (fun fd => decide (fd.name ∈ ns))).map
          (fun fd => (fd.name, getField record fd.name)) := by
  induction schema with
  | nil => rfl
  | cons fd rest ih =>
    rw [expectedProps_cons, List.filter_cons]
    by_cases h : fd.name ∈ ns
    · simp [selectedKey, h, ih]
    · simp [selectedKey, h, ih]

theorem expectedProps_pdict (record : List (String × JVal)) (m : List (String × String))
    (schema : List FieldDef) :
    expectedProps record (.pdict m) schema
      = (schema.filter (fun fd => (m.lookup fd.name).isSome)).map
          (fun fd => (mappedName m fd, getField record fd.name)) := by
  induction schema with
  | nil => rfl
  | cons fd rest ih =>
    rw [expectedProps_cons, List.filter_cons]
    cases h : m.lookup fd.name with
    | none => simp [selectedKey, h, ih]
    | some v => simp [selectedKey, mappedName, h, ih]

/-- A record and schema exhibiting the list-whitelist ordering. -/
def c5record : List (String × JVal) := [("A", .jstr "a"), ("B", .jstr "b")]

/-- Two string fields `A`, `B`, in that schema order. -/
def c5schema : List FieldDef := [⟨"A", 4⟩, ⟨"B", 4⟩]

/-- Claim C5 counterexample: with the list whitelist `["B", "A"]` the
projected property keys come out in *schema* order `["A", "B"]`, not in
listing order `["B", "A"]` — the loop iterates the schema and merely
membership-tests the whitelist. -/
theorem c5_listing_order_counterexample :
    (_feature_properties c5record c5schema (.plist ["B", "A"])).map (fun l => l.map Prod.fst)
        = .ok ["A", "B"]
  ∧ (["A", "B"] : List String) ≠ ["B", "A"] :=
  ⟨rfl, by decide⟩

/-- Claim C5 (amended): with supported field types and distinct schema
names, property projection returns: with no whitelist every declared
field in schema order; with a list whitelist exactly the listed fields
the schema declares, in *schema* order; with a rename mapping exactly the
mapped fields with the mapped output key — falling back to the original
name when the mapped name is the falsy empty string — and the value taken
from the original field.  Field-name matching is String equality, hence
case-sensitive. -/
theorem c5_property_projection (record : List (String × JVal)) (schema : List FieldDef)
    (hok : ∀ fd ∈ schema, fd.ftype ∈ okay_types)
    (hnd : (schema.map FieldDef.name).Nodup) :
    _feature_properties record schema .pnone
        = .ok (schema.map (fun fd => (fd.name, getField record fd.name)))
  ∧ (∀ ns : List String,
      _feature_properties record schema (.plist ns)
        = .ok ((schema.filter (fun fd => decide (fd.name ∈ ns))).map
            (fun fd => (fd.name, getField record fd.name))))
  ∧ (∀ m : List (String × String),
      ((schema.filter (fun fd => (m.lookup fd.name).isSome)).map (mappedName m)).Nodup →
      _feature_properties record schema (.pdict m)
        = .ok ((schema.filter (fun fd => (m.lookup fd.name).isSome)).map
            (fun fd => (mappedName m fd, getField record fd.name)))) := by
  refine ⟨?_, ?_, ?_⟩
  · have h := featurePropsGo_ok record .pnone schema [] hok ?_ (by simp)
    · rw [_feature_properties, h, expectedProps_pnone, List.nil_append]
    · rw [expectedProps_pnone]
      simpa [Function.comp] using hnd
  · intro ns
    have h := featurePropsGo_ok record (.plist ns) schema [] hok ?_ (by simp)
    · rw [_feature_properties, h, expectedProps_plist, List.nil_append]
    · rw [expectedProps_plist]
      have hsub : ((schema.filter (fun fd => decide (fd.name ∈ ns))).map FieldDef.name).Sublist
          (schema.map FieldDef.name) := (List.filter_sublist _).map _
      have := hsub.nodup hnd
      simpa [Function.comp] using this
  · intro m hmnd
    have h := featurePropsGo_ok record (.pdict m) schema [] hok ?_ (by simp)
    · rw [_feature_properties, h, expectedProps_pdict, List.nil_append]
    · rw [expectedProps_pdict]
      simpa [Function.comp] using hmnd

/-- The record of the spec's end-to-end scenario. -/
def oakRecord : List (String × JVal) :=
  [("NAME", .jstr "Oakland"), ("HIGHWAY", .jstr "primary")]

/-- Its two-string-field schema. -/
def oakSchema : List FieldDef := [⟨"NAME", 4⟩, ⟨"HIGHWAY", 0⟩]

/-- Witness for `c5_property_projection` on the Oakland record: all three
whitelist forms at concrete inputs. -/
theorem c5_property_projection_witness :
    _feature_properties oakRecord oakSchema .pnone
        = .ok [("NAME", .jstr "Oakland"), ("HIGHWAY", .jstr "primary")]
  ∧ _feature_properties oakRecord oakSchema (.plist ["NAME"])
        = .ok [("NAME", .jstr "Oakland")]
  ∧ _feature_properties oakRecord oakSchema (.pdict [("HIGHWAY", "highway")])
        = .ok [("highway", .jstr "primary")] :=
  ⟨(c5_property_projection oakRecord oakSchema (by decide) (by decide)).1,
   (c5_property_projection oakRecord oakSchema (by decide) (by decide)).2.1 ["NAME"],
   (c5_property_projection oakRecord oakSchema (by decide) (by decide)).2.2
     [("HIGHWAY", "highway")] (by decide)⟩

theorem allSome_eq_filterMap {l : List (Option String)}
    (h : ∀ x ∈ l, x.isSome = true) : allSome l = some (l.filterMap id) := by
  induction l with
  | nil => rfl
  | cons x xs ih =>
    cases x with
    | none => exact absurd (h none (by simp)) (by simp)
    | some v =>
      rw [allSome, ih (fun y hy => h y (List.mem_cons_of_mem _ hy))]
      simp [List.filterMap_cons]

theorem mem_filterMap_id {l : List (Option String)} {tag : String} :
    tag ∈ l.filterMap id ↔ some tag ∈ l := by
  simp [List.mem_filterMap]

theorem featGeomType_ok {f : JVal} {t : String} (h : featGeomType f = .ok t) :
    ∃ g, f.lookup "geometry" = some g ∧ g.lookup "type" = some (.jstr t) := by
  unfold featGeomType at h
  split at h
  · rename_i g hg
    split at h
    · rename_i t' ht'
      cases h
      exact ⟨g, hg, ht'⟩
    · exact absurd h (by simp)
    · exact absurd h (by simp)
  · exact absurd h (by simp)

theorem arcFeature_ok_polyline {f g : JVal} {t : String}
    (hg : f.lookup "geometry" = some g)
    (ht : g.lookup "type" = some (.jstr t))
    (hlt : t = "LineString" ∨ t = "MultiLineString")
    (hco : (g.lookup "coordinates").isSome = true)
    (hpr : (f.lookup "properties").isSome = true) :
    ∃ p, arcFeature f = .ok p := by
  obtain ⟨c, hc⟩ := Option.isSome_iff_exists.mp hco
  obtain ⟨pr, hp⟩ := Option.isSome_iff_exists.mp hpr
  have hlu1 : arc_geometry_types.lookup "LineString" = some "esriGeometryPolyline" := rfl
  have hlu2 : arc_geometry_types.lookup "MultiLineString" = some "esriGeometryPolyline" := rfl
  rcases hlt with rfl | rfl
  · exact ⟨(.jobj [("attributes", pr), ("geometry", .jobj [("paths", .jarr [c])])],
        "esriGeometryPolyline"),
      by simp [arcFeature, arcGeometry, hg, ht, hc, hp, hlu1]⟩
  · exact ⟨(.jobj [("attributes", pr), ("geometry", .jobj [("paths", c)])],
        "esriGeometryPolyline"),
      by simp [arcFeature, arcGeometry, hg, ht, hc, hp, hlu2]⟩

theorem mapArcFeatures_ok {feats : List JVal} {types : List String}
    (ht : collectTypes feats = .ok types)
    (hls : ∀ t ∈ types, t = "LineString" ∨ t = "MultiLineString")
    (hwf : ∀ f ∈ feats, ∃ g, f.lookup "geometry" = some g
        ∧ (g.lookup "coordinates").isSome = true
        ∧ (f.lookup "properties").isSome = true) :
    ∃ ps, mapArcFeatures feats = .ok ps := by
  induction feats generalizing types with
  | nil => exact ⟨[], rfl⟩
  | cons f fs ih =>
    unfold collectTypes at ht
    split at ht
    · exact absurd ht (by simp)
    · rename_i t hft
      split at ht
      · exact absurd ht (by simp)
      · rename_i ts hts
        cases ht
        obtain ⟨g, hg, htype⟩ := featGeomType_ok hft
        obtain ⟨g', hg', hco, hpr⟩ := hwf f (List.mem_cons_self _ _)
        rw [hg] at hg'
        cases hg'
        obtain ⟨p, hp⟩ := arcFeature_ok_polyline hg htype
          (hls t (List.mem_cons_self _ _)) hco hpr
        obtain ⟨ps, hps⟩ := ih hts (fun x hx => hls x (List.mem_cons_of_mem _ hx))
          (fun x hx => hwf x (List.mem_cons_of_mem _ hx))
        exact ⟨p :: ps, by rw [mapArcFeatures, hp, hps]⟩

theorem dedup_length_le_one {α : Type} [DecidableEq α] {l : List α} {a : α}
    (h : ∀ x ∈ l, x = a) : l.dedup.length ≤ 1 := by
  induction l with
  | nil => simp
  | cons x xs ih =>
    by_cases hx : x ∈ xs
    · rw [List.dedup_cons_of_mem hx]
      exact ih (fun y hy => h y (List.mem_cons_of_mem _ hy))
    · rw [List.dedup_cons_of_not_mem hx]
      have hxs : xs = [] := by
        cases xs with
        | nil => rfl
        | cons y ys =>
          exfalso
          have h1 := h y (by simp)
          have h2 := h x (by simp)
          exact hx (by rw [h2, ← h1]; simp)
      subst hxs
      simp

/-- Claim C3: a collection whose (valid GeoJSON) geometry types map to
more than one distinct Arc geometry-type tag fails with the taxonomy
error whose message joins exactly the conflicting tags; the failure
depends only on the types, not on the features' coordinates or
properties, so it is raised before any feature is transformed.  A
collection whose types all map to `esriGeometryPolyline` (a `LineString`
together with a `MultiLineString`) converts successfully. -/
theorem c3_arc_mixed_taxonomy (content : JVal) (feats : List JVal) (types : List String)
    (hf : getFeatList content = .ok feats)
    (ht : collectTypes feats = .ok types)
    (hv : ∀ t ∈ types, (arc_geometry_types.lookup t).isSome = true) :
    (1 < (foundTags types).length →
      _reserialize_to_arc content
          = .error ("Arc serialization needs a single geometry type, not "
              ++ joinComma ((foundTags types).filterMap id))
        ∧ ∀ tag, tag ∈ (foundTags types).filterMap id ↔ some tag ∈ foundTags types)
  ∧ ((∀ t ∈ types, t = "LineString" ∨ t = "MultiLineString") →
      (content.lookup "crs").isSome = true →
      (∀ f ∈ feats, ∃ g, f.lookup "geometry" = some g
        ∧ (g.lookup "coordinates").isSome = true
        ∧ (f.lookup "properties").isSome = true) →
      ∃ res, _reserialize_to_arc content = .ok res) := by
  constructor
  · intro hlen
    have hall : ∀ x ∈ foundTags types, x.isSome = true := by
      intro x hx
      rw [foundTags, List.mem_dedup] at hx
      obtain ⟨t, hmem, rfl⟩ := List.mem_map.mp hx
      exact hv t (List.mem_dedup.mp hmem)
    have hsome := allSome_eq_filterMap hall
    refine ⟨?_, fun tag => mem_filterMap_id⟩
    simp only [_reserialize_to_arc, hf, ht, hlen, if_true, hsome]
  · intro hls hcrs hwf
    obtain ⟨crs, hc⟩ := Option.isSome_iff_exists.mp hcrs
    have hconst : ∀ x ∈ (types.dedup).map (fun t => arc_geometry_types.lookup t),
        x = some "esriGeometryPolyline" := by
      intro x hx
      obtain ⟨t, hmem, rfl⟩ := List.mem_map.mp hx
      rcases hls t (List.mem_dedup.mp hmem) with rfl | rfl <;> rfl
    have hlen2 : ¬ 1 < (foundTags types).length := by
      have hd := dedup_length_le_one hconst
      rw [foundTags]
      omega
    obtain ⟨ps, hps⟩ := mapArcFeatures_ok ht hls hwf
    simp only [_reserialize_to_arc, hf, ht, if_neg hlen2, hc, hps]
    cases ps.getLast? <;> exact ⟨_, rfl⟩

/-- A LineString feature with no coordinates (its transformation would
raise `KeyError: coordinates`, so a taxonomy error on it demonstrates the
check runs first). -/
def c3f1 : JVal :=
  .jobj [("geometry", .jobj [("type", .jstr "LineString")]), ("properties", .jobj [])]

/-- A Polygon feature with no coordinates. -/
def c3f2 : JVal :=
  .jobj [("geometry", .jobj [("type", .jstr "Polygon")]), ("properties", .jobj [])]

/-- A mixed LineString + Polygon collection. -/
def c3mixed : JVal := .jobj [("features", .jarr [c3f1, c3f2])]

/-- A complete LineString feature. -/
def c3g1 : JVal :=
  .jobj [("geometry", .jobj [("type", .jstr "LineString"), ("coordinates", .jarr [])]),
         ("properties", .jobj [])]

/-- A complete MultiLineString feature. -/
def c3g2 : JVal :=
  .jobj [("geometry", .jobj [("type", .jstr "MultiLineString"), ("coordinates", .jarr [])]),
         ("properties", .jobj [])]

/-- A single-tag LineString + MultiLineString collection. -/
def c3ok : JVal := .jobj [("features", .jarr [c3g1, c3g2]), ("crs", .jobj [])]

/-- Witness for `c3_arc_mixed_taxonomy`: the mixed collection (with
untransformable features) fails with the message naming both tags, and
the polyline-only collection converts. -/
theorem c3_arc_mixed_taxonomy_witness :
    _reserialize_to_arc c3mixed
        = .error ("Arc serialization needs a single geometry type, not esriGeometryPolyline, esriGeometryPolygon")
  ∧ ("esriGeometryPolyline" ∈ (foundTags ["LineString", "Polygon"]).filterMap id
      ∧ "esriGeometryPolygon" ∈ (foundTags ["LineString", "Polygon"]).filterMap id)
  ∧ (∃ res, _reserialize_to_arc c3ok = .ok res) := by
  have h1 := (c3_arc_mixed_taxonomy c3mixed [c3f1, c3f2] ["LineString", "Polygon"]
    rfl rfl (by decide)).1 (by decide)
  have h2 := (c3_arc_mixed_taxonomy c3ok [c3g1, c3g2] ["LineString", "MultiLineString"]
    rfl rfl (by decide)).2 (by decide) rfl
    (by
      intro f hff
      fin_cases hff
      · exact ⟨.jobj [("type", .jstr "LineString"), ("coordinates", .jarr [])], rfl, rfl, rfl⟩
      · exact ⟨.jobj [("type", .jstr "MultiLineString"), ("coordinates", .jarr [])], rfl, rfl, rfl⟩)
  exact ⟨h1.1, ⟨(h1.2 "esriGeometryPolyline").mpr (by decide),
    (h1.2 "esriGeometryPolygon").mpr (by decide)⟩, h2⟩
